import Mathlib

/-!
Shallow embedding of the `socks5` package of `Abdullah2993/socks5-server` (Go 1.13),
together with the Go 1.13 `net`/`strconv` helpers it relies on for address handling.
Bytes are natural numbers; Go strings and byte slices are `List Nat`; Go `nil` results
and failed parses are `Option`/`Except` values.
-/

namespace Socks5

/-- Byte list of an ASCII string literal, used to write Go string constants. -/
def str (s : String) : List Nat := s.data.map Char.toNat

/-- Index of the first occurrence of byte `b` in `s` (Go `bytealg.IndexByte...`);
`none` when absent (Go `-1`). -/
def byteIndex : List Nat → Nat → Option Nat
  | [], _ => none
  | c :: rest, b => if c = b then some 0 else (byteIndex rest b).map (· + 1)

/-- Index of the last occurrence of byte `b` in `s` (Go `last` in net/ipsock.go). -/
def lastIndex : List Nat → Nat → Option Nat
  | [], _ => none
  | c :: rest, b =>
    match lastIndex rest b with
    | some i => some (i + 1)
    | none => if c = b then some 0 else none

/-- Embeds Go 1.13 `net.SplitHostPort`; all error returns collapse to `none`. -/
def splitHostPort (hostPort : List Nat) : Option (List Nat × List Nat) :=
  match lastIndex hostPort 58 with
  | none => none
  | some i =>
    match hostPort with
    | [] => none
    | c0 :: _ =>
      if c0 = 91 then
        match byteIndex hostPort 93 with
        | none => none
        | some e =>
          if e + 1 = hostPort.length then none
          else if e + 1 = i then
            if byteIndex (hostPort.drop 1) 91 ≠ none then none
            else if byteIndex (hostPort.drop (e + 1)) 93 ≠ none then none
            else some ((hostPort.drop 1).take (e - 1), hostPort.drop (i + 1))
          else none
      else
        let host := hostPort.take i
        if byteIndex host 58 ≠ none then none
        else if byteIndex hostPort 91 ≠ none then none
        else if byteIndex hostPort 93 ≠ none then none
        else some (host, hostPort.drop (i + 1))

/-- Embeds Go `net.JoinHostPort`: brackets the host iff it contains a colon. -/
def joinHostPort (host port : List Nat) : List Nat :=
  if byteIndex host 58 ≠ none then 91 :: (host ++ 93 :: 58 :: port)
  else host ++ 58 :: port

/-- Go net's `big` constant, the parse cutoff `0xFFFFFF`. -/
def bigNum : Nat := 0xFFFFFF

/-- Loop of Go net's `dtoi`: accumulates decimal digits, reporting the value,
the number of bytes consumed, and an overflow flag. -/
def dtoiLoop : List Nat → Nat → Nat → Nat × Nat × Bool
  | [], n, i => (n, i, true)
  | c :: rest, n, i =>
    if 48 ≤ c ∧ c ≤ 57 then
      let n' := n * 10 + (c - 48)
      if n' ≥ bigNum then (bigNum, i, false)
      else dtoiLoop rest n' (i + 1)
    else (n, i, true)

/-- Embeds Go net's `dtoi`: decimal prefix value, bytes consumed, success flag. -/
def dtoi (s : List Nat) : Nat × Nat × Bool :=
  let r := dtoiLoop s 0 0
  if r.2.1 = 0 then (0, 0, false) else r

/-- Loop of Go net's `xtoi`, the hexadecimal analogue of `dtoiLoop`. -/
def xtoiLoop : List Nat → Nat → Nat → Nat × Nat × Bool
  | [], n, i => (n, i, true)
  | c :: rest, n, i =>
    if 48 ≤ c ∧ c ≤ 57 then
      let n' := n * 16 + (c - 48)
      if n' ≥ bigNum then (0, i, false) else xtoiLoop rest n' (i + 1)
    else if 97 ≤ c ∧ c ≤ 102 then
      let n' := n * 16 + (c - 97) + 10
      if n' ≥ bigNum then (0, i, false) else xtoiLoop rest n' (i + 1)
    else if 65 ≤ c ∧ c ≤ 70 then
      let n' := n * 16 + (c - 65) + 10
      if n' ≥ bigNum then (0, i, false) else xtoiLoop rest n' (i + 1)
    else (n, i, true)

/-- Embeds Go net's `xtoi`: hexadecimal prefix value, bytes consumed, success flag. -/
def xtoi (s : List Nat) : Nat × Nat × Bool :=
  let r := xtoiLoop s 0 0
  if r.2.1 = 0 then (0, 0, false) else r

/-- Go net's `v4InV6Prefix`, the 12-byte head of an IPv4-in-IPv6 address. -/
def v4InV6Head : List Nat := [0, 0, 0, 0, 0, 0, 0, 0, 0, 0, 0xff, 0xff]

/-- Embeds Go `net.IPv4`: the 16-byte IPv4-in-IPv6 representation of `a.b.c.d`. -/
def ipv4 (a b c d : Nat) : List Nat := v4InV6Head ++ [a, b, c, d]

/-- Field loop of Go 1.13 `net.parseIPv4`: `k` octets still expected, `first` marks
the first octet (no leading dot); yields the octet values and the unconsumed rest. -/
def parseIPv4Fields : Nat → Bool → List Nat → Option (List Nat × List Nat)
  | 0, _, s => some ([], s)
  | k + 1, first, s =>
    if s.length = 0 then none
    else
      let s' := if first then some s
                else match s with
                     | 46 :: rest => some rest
                     | _ => none
      match s' with
      | none => none
      | some s2 =>
        let r := dtoi s2
        if r.2.2 = false ∨ r.1 > 255 then none
        else
          match parseIPv4Fields k false (s2.drop r.2.1) with
          | none => none
          | some (p, rest) => some (r.1 :: p, rest)

/-- Embeds Go 1.13 `net.parseIPv4` (no rejection of leading zeros at that version). -/
def parseIPv4 (s : List Nat) : Option (List Nat) :=
  match parseIPv4Fields 4 true s with
  | some ([a, b, c, d], []) => some (ipv4 a b c d)
  | _ => none

/-- Loop of Go 1.13 `net.parseIPv6`: `fuel` bounds the iteration count (the Go loop
runs while the accumulated byte count is below 16, which its body grows every pass);
returns the accumulated bytes, the unconsumed input and the ellipsis position. -/
def parseIPv6Loop : Nat → List Nat → List Nat → Option Nat →
    Option (List Nat × List Nat × Option Nat)
  | 0, s, acc, ell => some (acc, s, ell)
  | fuel + 1, s, acc, ell =>
    if acc.length ≥ 16 then some (acc, s, ell)
    else
      let r := xtoi s
      if r.2.2 = false ∨ r.1 > 0xFFFF then none
      else if r.2.1 < s.length ∧ s.get? r.2.1 = some 46 then
        if ell = none ∧ acc.length ≠ 12 then none
        else if acc.length + 4 > 16 then none
        else
          match parseIPv4 s with
          | none => none
          | some ip4 => some (acc ++ ip4.drop 12, [], ell)
      else
        let acc := acc ++ [r.1 / 256, r.1 % 256]
        let s := s.drop r.2.1
        if s.length = 0 then some (acc, [], ell)
        else if s.head? ≠ some 58 ∨ s.length = 1 then none
        else
          let s := s.drop 1
          if s.head? = some 58 then
            if ell ≠ none then none
            else
              let ell := some acc.length
              let s := s.drop 1
              if s.length = 0 then some (acc, [], ell)
              else parseIPv6Loop fuel s acc ell
          else parseIPv6Loop fuel s acc ell

/-- Embeds Go 1.13 `net.parseIPv6` (zone-free form used by `ParseIP`). -/
def parseIPv6 (s : List Nat) : Option (List Nat) :=
  let lead := match s with
              | 58 :: 58 :: rest => (rest, some 0)
              | _ => (s, (none : Option Nat))
  if lead.2 = some 0 ∧ lead.1 = [] then some (List.replicate 16 0)
  else
    match parseIPv6Loop 16 lead.1 [] lead.2 with
    | none => none
    | some (acc, rest, ell) =>
      if rest ≠ [] then none
      else if acc.length < 16 then
        match ell with
        | none => none
        | some e => some (acc.take e ++ List.replicate (16 - acc.length) 0 ++ acc.drop e)
      else
        match ell with
        | some _ => none
        | none => some acc

/-- Scan of Go 1.13 `net.ParseIP`: the first `.` or `:` selects the family. -/
def parseIPScan : List Nat → Option Bool
  | [] => none
  | 46 :: _ => some true
  | 58 :: _ => some false
  | _ :: rest => parseIPScan rest

/-- Embeds Go 1.13 `net.ParseIP`; `none` is Go's `nil` IP. -/
def parseIP (s : List Nat) : Option (List Nat) :=
  match parseIPScan s with
  | some true => parseIPv4 s
  | some false => parseIPv6 s
  | none => none

/-- Embeds Go net's `isZeros`. -/
def isZeros (p : List Nat) : Bool := p.all (· = 0)

/-- Embeds Go `net.IP.To4`; `none` is Go's `nil`. -/
def to4 (ip : List Nat) : Option (List Nat) :=
  if ip.length = 4 then some ip
  else if ip.length = 16 ∧ isZeros (ip.take 10) ∧ ip.get? 10 = some 0xff ∧
      ip.get? 11 = some 0xff then
    some (ip.drop 12)
  else none

/-- Embeds Go `net.IP.To16`; `none` is Go's `nil`. -/
def to16 (ip : List Nat) : Option (List Nat) :=
  if ip.length = 4 then some (v4InV6Head ++ ip)
  else if ip.length = 16 then some ip
  else none

/-- Decimal digit run of a natural number (Go net's `uitoa`, `strconv.Itoa` on the
nonnegative values this program feeds them); `fuel` dominates the digit count. -/
def uitoaCore : Nat → Nat → List Nat
  | 0, _ => []
  | fuel + 1, n =>
    if n < 10 then [48 + n]
    else uitoaCore fuel (n / 10) ++ [48 + n % 10]

/-- ASCII decimal representation of a natural number. -/
def uitoa (n : Nat) : List Nat := uitoaCore (n + 1) n

/-- Hex digit byte, Go net's `hexDigit` table. -/
def hexDigit (v : Nat) : Nat := if v < 10 then 48 + v else 87 + v

/-- Embeds Go net's `appendHex`: lowercase hex of a 16-bit group, no leading zeros. -/
def hexDigitsOf (n : Nat) : List Nat :=
  if n = 0 then [48]
  else
    ((List.range 8).reverse).filterMap fun j =>
      let v := n >>> (j * 4)
      if v > 0 then some (hexDigit (v % 16)) else none

/-- Embeds Go net's `hexString`: two hex digits per byte. -/
def hexString (b : List Nat) : List Nat :=
  (b.map fun tn => [hexDigit (tn / 16 % 16), hexDigit (tn % 16)]).flatten

/-- 16-bit groups of an IPv6 byte string, as rendered by `net.IP.String`. -/
def groups16 : List Nat → List Nat
  | a :: b :: rest => (a * 256 + b) :: groups16 rest
  | _ => []

/-- Number of leading zero groups. -/
def countZeros : List Nat → Nat
  | 0 :: rest => 1 + countZeros rest
  | _ => 0

/-- Longest (leftmost on ties) run of at least one zero group, mirroring the zero-run
search loop of Go `net.IP.String`: returns the start index and length of the best run.
The fuel argument only bounds the iteration count (every pass consumes at least one
group, so `gs.length` passes suffice). -/
def findZeroRunF : Nat → List Nat → Nat → Option (Nat × Nat) → Option (Nat × Nat)
  | 0, _, _, best => best
  | _ + 1, [], _, best => best
  | fuel + 1, g :: rest, i, best =>
    if g = 0 then
      let j := 1 + countZeros rest
      let best' := match best with
        | none => some (i, j)
        | some (b0, blen) => if j > blen then some (i, j) else some (b0, blen)
      findZeroRunF fuel (rest.drop (j - 1)) (i + j) best'
    else findZeroRunF fuel rest (i + 1) best

/-- Zero-run search over a full group list. -/
def findZeroRun (gs : List Nat) (i : Nat) (best : Option (Nat × Nat)) : Option (Nat × Nat) :=
  findZeroRunF gs.length gs i best

/-- Colon-separated join of rendered groups. -/
def joinColon (xs : List (List Nat)) : List Nat := (xs.intersperse [58]).flatten

/-- IPv6 rendering of `net.IP.String` over the 16-bit groups: the best zero run of
two or more groups is compressed to `::`, all other groups print in short hex. -/
def ipStringV6 (gs : List Nat) : List Nat :=
  let run := match findZeroRun gs 0 none with
    | some (e0, len) => if len ≤ 1 then none else some (e0, e0 + len)
    | none => none
  match run with
  | none => joinColon (gs.map hexDigitsOf)
  | some (e0, e1) =>
    joinColon ((gs.take e0).map hexDigitsOf) ++ 58 :: 58 ::
      joinColon ((gs.drop e1).map hexDigitsOf)

/-- Embeds Go 1.13 `net.IP.String`. -/
def ipString (ip : List Nat) : List Nat :=
  if ip.length = 0 then str "<nil>"
  else
    match to4 ip with
    | some (a :: b :: c :: d :: _) =>
      uitoa a ++ 46 :: (uitoa b ++ 46 :: (uitoa c ++ 46 :: uitoa d))
    | _ =>
      if ip.length ≠ 16 then 63 :: hexString ip
      else ipStringV6 (groups16 ip)

/-- Embeds `strconv.ParseUint(port, 10, 16)` as used by `Marshal`: all-decimal,
nonempty, value within 16 bits; `none` for every Go error return. -/
def parseUint16 (s : List Nat) : Option Nat :=
  if s.length = 0 then none
  else if s.all (fun c => decide (48 ≤ c) && decide (c ≤ 57)) then
    let n := s.foldl (fun acc c => acc * 10 + (c - 48)) 0
    if n ≤ 65535 then some n else none
  else none


/-! Wire constants of `conn.go` and `addr.go`. -/

def socksVer5 : Nat := 0x05
def reserve : Nat := 0x00
def subNegotiationVer : Nat := 0x01

def CommandConnect : Nat := 0x01
def CommandBind : Nat := 0x02
def CommandUDPAssociation : Nat := 0x03

def responseSuccess : Nat := 0x00
def responseGeneralFailure : Nat := 0x01
def responseHostUnreachable : Nat := 0x04
def responseCommandNotSupported : Nat := 0x07
def responseAddressNotSupported : Nat := 0x08

def AddrTypeIPv4 : Nat := 0x01
def AddrTypeDomain : Nat := 0x03
def AddrTypeIPv6 : Nat := 0x04

def noAuth : Nat := 0x00
def userPassAuth : Nat := 0x02
def noAcceptable : Nat := 0xFF

/-- Failure outcomes of the embedded operations. The named protocol errors are the
package's error values; `eof` stands for any transport read failure inside
`io.ReadFull`, and `oobPanic`/`nilPanic` are Go runtime panics (slice index out of
bounds, method call on a nil connection). -/
inductive SErr where
  | invalidSocksVer
  | noAcceptableMethod
  | addrTypeNotSupported
  | invalidAddr
  | invalidPort
  | shortBuffer
  | authFailed
  | invalidSubNegVer
  | eof
  | oobPanic
  | nilPanic
deriving DecidableEq, Repr

instance {ε α : Type} [DecidableEq ε] [DecidableEq α] : DecidableEq (Except ε α)
  | .ok a, .ok b =>
    if h : a = b then .isTrue (by rw [h]) else .isFalse (by intro hc; cases hc; exact h rfl)
  | .error a, .error b =>
    if h : a = b then .isTrue (by rw [h]) else .isFalse (by intro hc; cases hc; exact h rfl)
  | .ok _, .error _ => .isFalse (by intro hc; cases hc)
  | .error _, .ok _ => .isFalse (by intro hc; cases hc)

/-- State of one `conn`: the scratch buffer, the bytes the client will send that have
not been read yet, the bytes written to the client so far, and whether the relay
phase was entered. -/
structure ConnSt where
  buf : List Nat
  inp : List Nat
  out : List Nat
  relayed : Bool
deriving DecidableEq, Repr

/-- Connection-method monad: state passing over `ConnSt` with short-circuiting
errors; the state (in particular the bytes already written) survives an error,
as the real socket writes do. -/
def M (α : Type) : Type := ConnSt → Except SErr α × ConnSt

instance : Monad M where
  pure a := fun st => (.ok a, st)
  bind x f := fun st =>
    match x st with
    | (.ok a, st') => f a st'
    | (.error e, st') => (.error e, st')

def M.get : M ConnSt := fun st => (.ok st, st)

def M.set (st' : ConnSt) : M Unit := fun _ => (.ok (), st')

def M.throw {α : Type} (e : SErr) : M α := fun st => (.error e, st)

def M.tryCatch {α : Type} (x : M α) (h : SErr → M α) : M α := fun st =>
  match x st with
  | (.ok a, st') => (.ok a, st')
  | (.error e, st') => h e st'

/-- Overwrite of buffer positions `[a, a + data.length)` with `data`. -/
def writeSlice (buf : List Nat) (a : Nat) (data : List Nat) : List Nat :=
  buf.take a ++ data ++ buf.drop (a + data.length)

/-- Embeds `io.ReadFull(c, c.buf[a:b])`: fills buffer positions `[a, b)` from the
client stream. Slice bounds beyond the buffer are a Go runtime panic; a stream with
fewer than `b - a` bytes left is a read error. -/
def readFull (a b : Nat) : M Unit := fun st =>
  if a ≤ b ∧ b ≤ st.buf.length then
    if st.inp.length < b - a then (.error .eof, st)
    else (.ok (), { st with buf := writeSlice st.buf a (st.inp.take (b - a)),
                            inp := st.inp.drop (b - a) })
  else (.error .oobPanic, st)

/-- Embeds the read `c.buf[i]`. -/
def bufGet (i : Nat) : M Nat := fun st =>
  match st.buf.get? i with
  | some v => (.ok v, st)
  | none => (.error .oobPanic, st)

/-- Embeds the write `c.buf[i] = v`. -/
def bufSet (i v : Nat) : M Unit := fun st =>
  if i < st.buf.length then (.ok (), { st with buf := st.buf.set i v })
  else (.error .oobPanic, st)

/-- Embeds the slice read `c.buf[:n]`. -/
def bufTake (n : Nat) : M (List Nat) := fun st =>
  if n ≤ st.buf.length then (.ok (st.buf.take n), st)
  else (.error .oobPanic, st)

/-- Embeds `c.Write(c.buf[:n])`; the transport write itself is taken to succeed. -/
def writeBuf (n : Nat) : M Unit := fun st =>
  if n ≤ st.buf.length then (.ok (), { st with out := st.out ++ st.buf.take n })
  else (.error .oobPanic, st)

/-- Embeds `newConn`: a fresh connection over the given client byte stream, with the
zero-initialized 520-byte scratch buffer `make([]byte, 520)`. -/
def newConn (inp : List Nat) : ConnSt :=
  { buf := List.replicate 520 0, inp := inp, out := [], relayed := false }

/-- Embeds `socksAddr` (`Typ` stands for the Go field `Type`, a reserved word here). -/
structure socksAddr where
  Typ : Nat
  Addr : List Nat
deriving DecidableEq, Repr

/-- Address-payload length `al` computed by the `switch s.Type` in `Marshal`. -/
def addrLen (t : Nat) (host : List Nat) : Nat :=
  if t = AddrTypeIPv4 then 4
  else if t = AddrTypeIPv6 then 16
  else if t = AddrTypeDomain then 1 + host.length
  else 0

/-- Embeds Go's built-in `copy(dst[i:], src)`: copies as many bytes as fit. -/
def goCopy (dst : List Nat) (i : Nat) (src : List Nat) : List Nat :=
  let n := min src.length (dst.length - i)
  dst.take i ++ src.take n ++ dst.drop (i + n)

/-- Embeds `binary.BigEndian.PutUint16(b[i:], v)`. -/
def putUint16 (b : List Nat) (i v : Nat) : List Nat :=
  (b.set i (v / 256 % 256)).set (i + 1) (v % 256)

/-- Embeds `socksAddr.Marshal`: encodes the record into the destination buffer,
returning the possibly written buffer and the byte count or error. -/
def Marshal (s : socksAddr) (b : List Nat) : List Nat × Except SErr Nat :=
  match splitHostPort s.Addr with
  | none => (b, .error .invalidAddr)
  | some (host, port) =>
    let ip := parseIP host
    if ip = none ∧ (s.Typ = AddrTypeIPv4 ∨ s.Typ = AddrTypeIPv6) then
      (b, .error .invalidAddr)
    else
      let al := addrLen s.Typ host
      if b.length < al + 3 then (b, .error .shortBuffer)
      else
        let b1 := b.set 0 s.Typ
        let b2 :=
          if s.Typ = AddrTypeIPv4 then goCopy b1 1 ((ip.bind to4).getD [])
          else if s.Typ = AddrTypeIPv6 then goCopy b1 1 ((ip.bind to16).getD [])
          else if s.Typ = AddrTypeDomain then
            goCopy (b1.set 1 (host.length % 256)) 2 host
          else b1
        match parseUint16 port with
        | none => (b2, .error .invalidPort)
        | some p => (putUint16 b2 (1 + al) p, .ok (3 + al))

/-- Embeds `newAddr`: classifies a textual `host:port` into a `socksAddr`;
`none` is the Go `nil` return. -/
def newAddr (addr : List Nat) : Option socksAddr :=
  match splitHostPort addr with
  | none => none
  | some (host, _) =>
    match parseIP host with
    | none => some { Typ := AddrTypeDomain, Addr := addr }
    | some ip =>
      if to4 ip ≠ none then some { Typ := AddrTypeIPv4, Addr := addr }
      else some { Typ := AddrTypeIPv6, Addr := addr }

/-- Embeds `conn.Negoatiate` (the method's own spelling): SOCKS5 method
negotiation for the server's single acceptable method. -/
def Negoatiate (auth : Nat) : M Unit := do
  let accept := noAcceptable
  readFull 0 2
  let b0 ← bufGet 0
  if b0 ≠ socksVer5 then M.throw .invalidSocksVer
  let methodCount ← bufGet 1
  readFull 0 methodCount
  let methods ← bufTake methodCount
  let accept ← match byteIndex methods auth with
               | some i => bufGet i
               | none => pure accept
  bufSet 0 socksVer5
  bufSet 1 accept
  writeBuf 2
  if accept = noAcceptable then M.throw .noAcceptableMethod

/-- Embeds `conn.ReadCommandRequest`: parses the command request frame into the
command byte and the target address record. -/
def ReadCommandRequest : M (Nat × socksAddr) := do
  readFull 0 5
  let b0 ← bufGet 0
  if b0 ≠ socksVer5 then M.throw .invalidSocksVer
  let method ← bufGet 1
  let addrType ← bufGet 3
  let ado ←
    if addrType = AddrTypeIPv4 then pure ((4 : Nat), false, (1 : Nat))
    else if addrType = AddrTypeIPv6 then pure ((16 : Nat), false, (1 : Nat))
    else if addrType = AddrTypeDomain then do
      let l ← bufGet 4
      pure (l, true, (0 : Nat))
    else M.throw .addrTypeNotSupported
  let addrLength := ado.1
  let domain := ado.2.1
  let offset := ado.2.2
  let b4 ← bufGet 4
  bufSet 0 b4
  readFull offset (addrLength + 2)
  let addrBytes ← bufTake addrLength
  let p0 ← bufGet addrLength
  let p1 ← bufGet (addrLength + 1)
  let port := p0 * 256 + p1
  let targetHost := if domain then addrBytes else ipString addrBytes
  pure (method, { Typ := addrType, Addr := joinHostPort targetHost (uitoa port) })

/-- Embeds `conn.WriteCommandResponse`: response header, then the bound address
marshaled into `c.buf[3:]`, then one write of the whole frame. -/
def WriteCommandResponse (res : Nat) (addr : List Nat) : M Unit := do
  bufSet 0 socksVer5
  bufSet 1 res
  bufSet 2 reserve
  match newAddr addr with
  | none => M.throw .invalidAddr
  | some saddr => do
    let st ← M.get
    let mr := Marshal saddr (st.buf.drop 3)
    M.set { st with buf := st.buf.take 3 ++ mr.1 }
    match mr.2 with
    | .error e => M.throw e
    | .ok addrLenN => writeBuf (3 + addrLenN)

/-- Embeds `conn.WriteError`. The source builds the fixed error frame `errRes` and
then runs `copy(errRes, c.buf)` — destination first, so the bytes flow from the
scratch buffer into the local `errRes`, which is never used again — before writing
`c.buf[:10]` with only the code byte set. -/
def WriteError (res : Nat) : M Unit := do
  let errRes : List Nat := [socksVer5, 0x01, reserve, AddrTypeIPv4, 0, 0, 0, 0, 0, 0]
  let st ← M.get
  let _ := goCopy errRes 0 st.buf
  bufSet 1 res
  writeBuf 10

/-- Models `conn.Relay` as entry into the relay phase; the bidirectional byte copy
itself is transport activity outside this embedding. -/
def Relay : M Unit := fun st => (.ok (), { st with relayed := true })

/-- Embeds the `Authenticator` values of auth.go: `nopeAuth` and
`usernamePasswordAuth` with its configured credentials. -/
inductive Authenticator where
  | nopeAuth
  | usernamePasswordAuth (Username Password : List Nat)
deriving DecidableEq, Repr

/-- Embeds the `AuthMethod()` methods of both authenticators. -/
def AuthMethod : Authenticator → Nat
  | .nopeAuth => noAuth
  | .usernamePasswordAuth _ _ => userPassAuth

/-- Embeds `usernamePasswordAuth.Authenticate` (RFC 1929 subnegotiation). -/
def userPassAuthenticate (username password : List Nat) : M Unit := do
  readFull 0 2
  let b0 ← bufGet 0
  if b0 ≠ subNegotiationVer then M.throw .invalidSubNegVer
  let ul ← bufGet 1
  readFull 0 (ul + 1)
  let user ← bufTake ul
  let pl ← bufGet ul
  readFull 0 pl
  let pass ← bufTake pl
  bufSet 0 subNegotiationVer
  bufSet 1 0x00
  let failed := user ≠ username ∨ pass ≠ password
  if failed then bufSet 1 0xED
  writeBuf 2
  if failed then M.throw .authFailed

/-- Embeds `Authenticator.Authenticate` for both variants (`nopeAuth` succeeds
with no bytes exchanged). -/
def Authenticate : Authenticator → M Unit
  | .nopeAuth => pure ()
  | .usernamePasswordAuth u p => userPassAuthenticate u p

/-- Configuration slice of `Server` that the per-connection handling reads. -/
structure Server where
  Cmds : List Nat
  Auth : Authenticator
deriving Repr

/-- Embeds the server that `ListenAndServe(addr)` builds with no options and
`checkDefaults` applied: CONNECT-only command set, no authentication. -/
def defaultServer : Server := { Cmds := [CommandConnect], Auth := .nopeAuth }

/-- Outcomes of the handlers' network operations, supplied as oracles: the local
address of a successful CONNECT dial, the address of a successful BIND listener,
and the remote address of a successfully accepted inbound connection
(`none` = that operation returned an error). -/
structure NetEnv where
  dialLocalAddr : Option (List Nat)
  listenAddr : Option (List Nat)
  acceptRemoteAddr : Option (List Nat)
deriving Repr

/-- Embeds `Server.handleConnect`. -/
def handleConnect (env : NetEnv) (_addr : socksAddr) : M Unit := do
  match env.dialLocalAddr with
  | none => WriteError responseHostUnreachable
  | some laddr => do
    WriteCommandResponse responseSuccess laddr
    Relay

/-- Embeds `Server.handleBind`. After a failed `Accept` the source writes a
`GeneralFailure` reply but does not return, so control falls through to
`nc.RemoteAddr()` on the nil connection — a runtime panic, modeled as `nilPanic`. -/
def handleBind (env : NetEnv) (_addr : socksAddr) : M Unit := do
  match env.listenAddr with
  | none => WriteError responseGeneralFailure
  | some laddr => do
    WriteCommandResponse responseSuccess laddr
    let nc := env.acceptRemoteAddr
    if nc = none then WriteError responseGeneralFailure
    let raddr ← match nc with
                | some a => pure a
                | none => M.throw .nilPanic
    WriteCommandResponse responseSuccess raddr
    Relay

/-- Embeds `Server.handleUDPAssociation` (the active line of the stub). -/
def handleUDPAssociation (_addr : socksAddr) : M Unit :=
  WriteError responseCommandNotSupported

/-- Embeds `Server.handleConnection`: negotiation, authentication, command parse
with its error-reply switch, then the `switch cmd` dispatch. -/
def handleConnection (s : Server) (env : NetEnv) : M Unit := do
  Negoatiate (AuthMethod s.Auth)
  Authenticate s.Auth
  let r ← M.tryCatch (do
      let x ← ReadCommandRequest
      pure (some x))
    (fun e =>
      match e with
      | .invalidSocksVer => do
        WriteError responseGeneralFailure
        pure none
      | .addrTypeNotSupported => do
        WriteError responseAddressNotSupported
        pure none
      | _ => pure none)
  match r with
  | none => pure ()
  | some (cmd, addr) =>
    if cmd = CommandConnect then handleConnect env addr
    else if cmd = CommandBind then handleBind env addr
    else if cmd = CommandUDPAssociation then handleUDPAssociation addr
    else WriteError responseCommandNotSupported


/-! Concrete fixtures for the claim theorems. -/

/-- Round trip of the address codec: textual address to record (`newAddr`), record
to wire bytes (`Marshal` into the 517 bytes a response frame offers), wire bytes
back to a record through the discriminant-driven parse of `ReadCommandRequest`
(reading a request frame `ver cmd rsv` followed by those bytes). -/
def roundTrip (a : List Nat) : Option socksAddr :=
  match newAddr a with
  | none => none
  | some s =>
    match Marshal s (List.replicate 517 0) with
    | (b, Except.ok n) =>
      match (ReadCommandRequest (newConn ([socksVer5, CommandConnect, reserve] ++ b.take n))).1 with
      | Except.ok (_, addr) => some addr
      | _ => none
    | _ => none

/-- Network oracle where dial fails, BIND listen yields `9.9.9.9:1` and accept
yields a peer at `8.8.8.8:2`. -/
def bindEnv0 : NetEnv :=
  { dialLocalAddr := none, listenAddr := some (str "9.9.9.9:1"),
    acceptRemoteAddr := some (str "8.8.8.8:2") }

/-- Client bytes of a full session offering no-auth and then requesting BIND to
`1.2.3.4:80`. -/
def bindReqInput : List Nat := [5, 1, 0] ++ [5, 2, 0, 1, 1, 2, 3, 4, 0, 80]

/-- Client bytes of a session whose command request carries version byte 4. -/
def c3Input : List Nat := [5, 1, 0] ++ [4, 1, 0, 1, 1, 2, 3, 4, 0, 80]

/-- Network oracle for a BIND whose listener comes up at `1.2.3.4:5` but whose
`Accept` fails. -/
def bindFailEnv : NetEnv :=
  { dialLocalAddr := none, listenAddr := some (str "1.2.3.4:5"), acceptRemoteAddr := none }

/-- Network oracle for a BIND that listens at `1.2.3.4:5` and accepts a peer at
`5.6.7.8:9`. -/
def bindOkEnv : NetEnv :=
  { dialLocalAddr := none, listenAddr := some (str "1.2.3.4:5"),
    acceptRemoteAddr := some (str "5.6.7.8:9") }

/-- Target address record handed to the BIND handler in the fixtures. -/
def bindAddr0 : socksAddr := { Typ := AddrTypeIPv4, Addr := str "7.7.7.7:7" }

/-- Shape of one RFC 1929 username/password frame as the client sends it: version
byte, username length, username bytes, password length, password bytes; `rest` is
whatever the client pipelines afterwards. -/
def authWire (userB passB rest : List Nat) : List Nat :=
  subNegotiationVer :: userB.length :: (userB ++ passB.length :: (passB ++ rest))

/-- Well-formedness of a connection state: the scratch buffer is the 520 bytes
`newConn` allocates and buffer and pending input hold byte values. -/
def ConnOK (st : ConnSt) : Prop :=
  st.buf.length = 520 ∧ (∀ b ∈ st.buf, b < 256) ∧ (∀ b ∈ st.inp, b < 256)

/-! Supporting lemmas. -/

theorem M.bind_def {α β : Type} (x : M α) (f : α → M β) (st : ConnSt) :
    (x >>= f) st = match x st with
      | (Except.ok a, st') => f a st'
      | (Except.error e, st') => (Except.error e, st') := rfl

theorem M.pure_def {α : Type} (a : α) (st : ConnSt) :
    (pure a : M α) st = (Except.ok a, st) := rfl

theorem byteIndex_none : ∀ {l : List Nat} {b : Nat}, b ∉ l → byteIndex l b = none
  | [], _, _ => rfl
  | c :: rest, b, h => by
    have hcb : ¬ c = b := fun hc => h (hc ▸ List.mem_cons_self c rest)
    simp [byteIndex, hcb, byteIndex_none (fun hm => h (List.mem_cons_of_mem _ hm))]

theorem take_two_set : ∀ (L : List Nat) (a b : Nat), 2 ≤ L.length →
    ((L.set 0 a).set 1 b).take 2 = [a, b]
  | _ :: _ :: _, _, _, _ => by simp [List.set]
  | [], _, _, h => by simp at h
  | [_], _, _, h => by simp at h

set_option maxRecDepth 4000 in
theorem negotiate_scenario_a (auth v n : Nat) (rest : List Nat) (st : ConnSt)
    (hbuf : st.buf.length = 520) (hinp : st.inp = v :: n :: rest) (hv : v ≠ socksVer5) :
    (Negoatiate auth st).1 = Except.error SErr.invalidSocksVer ∧
    (Negoatiate auth st).2.out = st.out := by
  have hA : ¬ (rest.length + 1 + 1 < 2) := by omega
  simp [Negoatiate, readFull, bufGet, bufSet, bufTake, writeBuf, M.throw,
    M.bind_def, writeSlice, hbuf, hinp, hv, hA]

set_option maxRecDepth 4000 in
theorem negotiate_scenario_b (auth : Nat) (methods rest : List Nat) (st : ConnSt)
    (hbuf : st.buf.length = 520) (hinp : st.inp = socksVer5 :: methods.length :: (methods ++ rest))
    (hm : auth ∉ methods) (hlen : methods.length ≤ 255) :
    (Negoatiate auth st).1 = Except.error SErr.noAcceptableMethod ∧
    (Negoatiate auth st).2.out = st.out ++ [socksVer5, noAcceptable] := by
  have hA : ¬ (methods.length + rest.length + 1 + 1 < 2) := by omega
  have hb1 : methods.length ≤ 518 + 2 := by omega
  simp [Negoatiate, readFull, bufGet, bufSet, bufTake, writeBuf, M.throw,
    M.bind_def, writeSlice, List.take_left, byteIndex_none hm,
    hbuf, hinp, hA, hb1]
  refine take_two_set _ _ _ ?_
  simp [hbuf]
  omega


theorem take_append_cons (l z : List Nat) (a : Nat) :
    (l ++ a :: z).take (l.length + 1) = l ++ [a] := by
  induction l with
  | nil => simp
  | cons x t ih => simpa using ih

theorem get_append_cons (l z : List Nat) (a : Nat) :
    (l ++ a :: z).get? l.length = some a := by
  induction l with
  | nil => rfl
  | cons x t ih => simpa using ih

theorem getElem_append_cons (l z : List Nat) (a : Nat) :
    (l ++ a :: z)[l.length]? = some a := by
  have := get_append_cons l z a
  simpa [List.get?_eq_getElem?] using this

theorem getElem_append_len (l z : List Nat) (a : Nat) (h : l.length < (l ++ a :: z).length) :
    (l ++ a :: z)[l.length] = a := by
  have h2 := getElem_append_cons l z a
  rw [List.getElem?_eq_getElem h] at h2
  exact Option.some.inj h2

set_option maxRecDepth 8000 in
theorem auth_scenario_match (username password userB passB rest : List Nat) (st : ConnSt)
    (hbuf : st.buf.length = 520) (hinp : st.inp = authWire userB passB rest)
    (hu : userB.length ≤ 255) (hp : passB.length ≤ 255)
    (hua : userB = username) (hpa : passB = password) :
    (userPassAuthenticate username password st).1 = Except.ok () ∧
    (userPassAuthenticate username password st).2.out = st.out ++ [subNegotiationVer, 0x00] := by
  subst hua
  subst hpa
  have hA : ¬ (userB.length + (passB.length + rest.length + 1) + 1 + 1 < 2) := by omega
  have hB : userB.length ≤ 519 := by omega
  have hD : ¬ (passB.length + rest.length < passB.length) := by omega
  have hE : min passB.length (passB.length + rest.length) = passB.length :=
    Nat.min_eq_left (by omega)
  have hF : passB.length ≤ userB.length + (519 - userB.length + 1) := by omega
  have hG : 1 < userB.length + (519 - userB.length + 1) := by omega
  have hH : 2 ≤ passB.length + (userB.length + (519 - userB.length + 1) - passB.length) := by
    omega
  have hI : 2 ≤ userB.length + (519 - userB.length + 1) := by omega
  simp [userPassAuthenticate, authWire, readFull, bufGet, bufSet, bufTake, writeBuf,
    M.throw, M.bind_def, M.pure_def, writeSlice, List.take_left, take_append_cons, get_append_cons,
    getElem_append_cons, getElem_append_len, take_two_set, hbuf, hinp, hA, hB, hD, hE, hF,
    hG, hH, hI]

set_option maxRecDepth 8000 in
theorem auth_scenario_mismatch (username password userB passB rest : List Nat) (st : ConnSt)
    (hbuf : st.buf.length = 520) (hinp : st.inp = authWire userB passB rest)
    (hu : userB.length ≤ 255) (hp : passB.length ≤ 255)
    (hne : userB ≠ username ∨ passB ≠ password) :
    (userPassAuthenticate username password st).1 = Except.error SErr.authFailed ∧
    (userPassAuthenticate username password st).2.out = st.out ++ [subNegotiationVer, 0xED] := by
  have hA : ¬ (userB.length + (passB.length + rest.length + 1) + 1 + 1 < 2) := by omega
  have hB : userB.length ≤ 519 := by omega
  have hD : ¬ (passB.length + rest.length < passB.length) := by omega
  have hE : min passB.length (passB.length + rest.length) = passB.length :=
    Nat.min_eq_left (by omega)
  have hF : passB.length ≤ userB.length + (519 - userB.length + 1) := by omega
  have hG : 1 < userB.length + (519 - userB.length + 1) := by omega
  have hH : 2 ≤ passB.length + (userB.length + (519 - userB.length + 1) - passB.length) := by
    omega
  have hI : 2 ≤ userB.length + (519 - userB.length + 1) := by omega
  simp [userPassAuthenticate, authWire, readFull, bufGet, bufSet, bufTake, writeBuf,
    M.throw, M.bind_def, M.pure_def, writeSlice, List.take_left, take_append_cons,
    get_append_cons, getElem_append_cons, getElem_append_len, take_two_set, hbuf, hinp,
    hA, hB, hD, hE, hF, hG, hH, hI, hne]


set_option maxRecDepth 40000 in
/-- C3 (amended): whenever the command-request frame read after a successful
negotiation (method list `[0x00]`, no-auth) carries a version byte other than 5,
`handleConnection` answers it with a 10-byte `WriteError` reply whose code byte is
`GeneralFailure` (per the `WriteError` defect the other nine bytes echo the scratch
buffer), invokes no handler and relays nothing; it does not tear the connection
down silently. -/
theorem invalid_version_request_reply_shape (v b1 b2 b3 b4 : Nat) (rest : List Nat) (env : NetEnv)
    (hv : v ≠ socksVer5) :
    (handleConnection defaultServer env
        (newConn (5 :: 1 :: 0 :: v :: b1 :: b2 :: b3 :: b4 :: rest))).1 = Except.ok () ∧
    (handleConnection defaultServer env
        (newConn (5 :: 1 :: 0 :: v :: b1 :: b2 :: b3 :: b4 :: rest))).2.out =
      [socksVer5, noAuth, v, responseGeneralFailure, b2, b3, b4, 0, 0, 0, 0, 0] ∧
    (handleConnection defaultServer env
        (newConn (5 :: 1 :: 0 :: v :: b1 :: b2 :: b3 :: b4 :: rest))).2.relayed = false := by
  have hv' : v ≠ 5 := by simpa [socksVer5] using hv
  have hA : ¬ (rest.length + 1 + 1 + 1 + 1 + 1 < 5) := by omega
  have hA8 : ¬ (rest.length + 1 + 1 + 1 + 1 + 1 + 1 + 1 + 1 < 2) := by omega
  have hA7 : ¬ (rest.length + 1 + 1 + 1 + 1 + 1 + 1 + 1 < 1) := by omega
  simp [handleConnection, Negoatiate, ReadCommandRequest, WriteError, Authenticate,
    AuthMethod, defaultServer, newConn, readFull, bufGet, bufSet, bufTake, writeBuf,
    M.throw, M.bind_def, M.pure_def, M.tryCatch, M.get, M.set, writeSlice, byteIndex,
    goCopy, socksVer5, noAuth, reserve, noAcceptable, responseGeneralFailure,
    AddrTypeIPv4, AddrTypeIPv6, AddrTypeDomain, List.drop_replicate, List.take_replicate,
    hv', hA, hA8, hA7]


/-- C5 (amended): `Marshal` fails with `InvalidAddress` when the declared type is
IP-based and the host does not parse as an IP at all; it does not check the IP's
family against the declared type (see the counterexample for the wrong-family
case the original claim asserted). -/
theorem marshal_ip_type_fails_only_on_unparsable_host (s : socksAddr) (b host port : List Nat)
    (hsplit : splitHostPort s.Addr = some (host, port))
    (hip : parseIP host = none)
    (ht : s.Typ = AddrTypeIPv4 ∨ s.Typ = AddrTypeIPv6) :
    Marshal s b = (b, Except.error SErr.invalidAddr) := by
  simp [Marshal, hsplit, hip, ht]

/-- C9 (amended): for every address record that passes `Marshal`'s address checks
(the `host:port` split succeeds, and for an IP-declared type the host parses as an
IP), a destination buffer shorter than `3 + addrLen` bytes — the nil buffer
included — makes `Marshal` fail with `ShortBuffer` and leaves the buffer
unwritten; a record failing the address checks yields `InvalidAddress` instead,
whatever the buffer. -/
theorem marshal_short_buffer_leaves_buffer_unwritten (s : socksAddr) (b host port : List Nat)
    (hsplit : splitHostPort s.Addr = some (host, port))
    (hok : ¬ (parseIP host = none ∧ (s.Typ = AddrTypeIPv4 ∨ s.Typ = AddrTypeIPv6)))
    (hshort : b.length < addrLen s.Typ host + 3) :
    Marshal s b = (b, Except.error SErr.shortBuffer) := by
  simp [Marshal, hsplit, hok, hshort]

theorem byteIndex_lt_length : ∀ {l : List Nat} {b i : Nat},
    byteIndex l b = some i → i < l.length := by
  intro l
  induction l with
  | nil => intro b i h; exact absurd h (by simp [byteIndex])
  | cons c t ih =>
    intro b i h
    by_cases hc : c = b
    · simp [byteIndex, hc] at h
      simp only [List.length_cons]
      omega
    · simp only [byteIndex, if_neg hc, Option.map_eq_some'] at h
      obtain ⟨j, hj, hji⟩ := h
      have hjl := ih hj
      simp only [List.length_cons]
      omega

theorem readFull_cases (a b : Nat) (st : ConnSt) (hab : a ≤ b) (hb : b ≤ st.buf.length)
    (hok : ConnOK st) :
    readFull a b st = (Except.error SErr.eof, st) ∨
    ∃ st', readFull a b st = (Except.ok (), st') ∧ ConnOK st' := by
  unfold readFull
  rw [if_pos ⟨hab, hb⟩]
  by_cases h : st.inp.length < b - a
  · left; rw [if_pos h]
  · right
    obtain ⟨h1, h2, h3⟩ := hok
    refine ⟨_, by rw [if_neg h], ?_, ?_, ?_⟩
    · simp only [writeSlice, List.length_append, List.length_take, List.length_drop]
      omega
    · intro x hx
      simp only [writeSlice, List.mem_append] at hx
      rcases hx with (hx | hx) | hx
      · exact h2 x (List.take_subset _ _ hx)
      · exact h3 x (List.take_subset _ _ hx)
      · exact h2 x (List.drop_subset _ _ hx)
    · intro x hx
      exact h3 x (List.drop_subset _ _ hx)

theorem bufGet_ok (i : Nat) (st : ConnSt) (hok : ConnOK st) (hi : i < 520) :
    ∃ v, bufGet i st = (Except.ok v, st) ∧ v < 256 := by
  obtain ⟨h1, h2, h3⟩ := hok
  have hi' : i < st.buf.length := by omega
  obtain ⟨v, hv⟩ : ∃ v, st.buf[i]? = some v := ⟨_, List.getElem?_eq_getElem hi'⟩
  have hv' : st.buf.get? i = some v := by rw [List.get?_eq_getElem?]; exact hv
  exact ⟨v, by simp [bufGet, List.get?_eq_getElem?, hv], h2 v (List.get?_mem hv')⟩

theorem bufSet_ok (i v : Nat) (st : ConnSt) (hok : ConnOK st) (hi : i < 520) (hv : v < 256) :
    ∃ st', bufSet i v st = (Except.ok (), st') ∧ ConnOK st' := by
  obtain ⟨h1, h2, h3⟩ := hok
  refine ⟨{ st with buf := st.buf.set i v }, ?_, ?_, ?_, h3⟩
  · unfold bufSet
    rw [if_pos (by omega)]
  · simp [h1]
  · intro x hx
    rcases List.mem_or_eq_of_mem_set hx with hx | hx
    · exact h2 x hx
    · omega

theorem bufTake_ok (n : Nat) (st : ConnSt) (hok : ConnOK st) (hn : n ≤ 520) :
    bufTake n st = (Except.ok (st.buf.take n), st) := by
  unfold bufTake
  rw [if_pos (show n ≤ st.buf.length by rw [hok.1]; exact hn)]

theorem writeBuf_ok (n : Nat) (st : ConnSt) (hok : ConnOK st) (hn : n ≤ 520) :
    writeBuf n st = (Except.ok (), { st with out := st.out ++ st.buf.take n }) ∧
    ConnOK { st with out := st.out ++ st.buf.take n } := by
  constructor
  · unfold writeBuf
    rw [if_pos (show n ≤ st.buf.length by rw [hok.1]; exact hn)]
  · exact hok


theorem negotiate_no_oob (auth : Nat) (st : ConnSt) (hok : ConnOK st) :
    (Negoatiate auth st).1 ≠ Except.error SErr.oobPanic := by
  unfold Negoatiate
  rcases readFull_cases 0 2 st (by omega) (by rw [hok.1]; omega) hok with h1 | ⟨st1, h1, hok1⟩
  · simp [M.bind_def, h1]
  · obtain ⟨v0, hg0, hv0⟩ := bufGet_ok 0 st1 hok1 (by omega)
    by_cases hv5 : v0 = socksVer5
    · obtain ⟨mc, hg1, hmc⟩ := bufGet_ok 1 st1 hok1 (by omega)
      rcases readFull_cases 0 mc st1 (by omega) (by rw [hok1.1]; omega) hok1 with
        h2 | ⟨st2, h2, hok2⟩
      · simp [M.bind_def, h1, hg0, hv5, hg1, h2, M.pure_def]
      · have htk := bufTake_ok mc st2 hok2 (by omega)
        rcases hbi : byteIndex (st2.buf.take mc) auth with _ | i
        · obtain ⟨st3, hs0, hok3⟩ := bufSet_ok 0 socksVer5 st2 hok2 (by omega) (by decide)
          obtain ⟨st4, hs1, hok4⟩ := bufSet_ok 1 noAcceptable st3 hok3 (by omega) (by decide)
          obtain ⟨hw, hok5⟩ := writeBuf_ok 2 st4 hok4 (by omega)
          simp [M.bind_def, h1, hg0, hv5, hg1, h2, htk, hbi, hs0, hs1, hw, M.pure_def,
            M.throw]
        · have hilt : i < 520 := by
            have hjl := byteIndex_lt_length hbi
            simp only [List.length_take] at hjl
            omega
          obtain ⟨acc, hgi, hacc⟩ := bufGet_ok i st2 hok2 hilt
          obtain ⟨st3, hs0, hok3⟩ := bufSet_ok 0 socksVer5 st2 hok2 (by omega) (by decide)
          obtain ⟨st4, hs1, hok4⟩ := bufSet_ok 1 acc st3 hok3 (by omega) (by omega)
          obtain ⟨hw, hok5⟩ := writeBuf_ok 2 st4 hok4 (by omega)
          by_cases hacc255 : acc = noAcceptable
          · subst hacc255
            simp [M.bind_def, h1, hg0, hv5, hg1, h2, htk, hbi, hgi, hs0, hs1, hw,
              M.pure_def, M.throw]
          · simp [M.bind_def, h1, hg0, hv5, hg1, h2, htk, hbi, hgi, hs0, hs1, hw,
              hacc255, M.pure_def, M.throw]
    · simp [M.bind_def, h1, hg0, hv5, M.throw, M.pure_def]


theorem readCommandRequest_no_oob (st : ConnSt) (hok : ConnOK st) :
    (ReadCommandRequest st).1 ≠ Except.error SErr.oobPanic := by
  unfold ReadCommandRequest
  rcases readFull_cases 0 5 st (by omega) (by rw [hok.1]; omega) hok with h1 | ⟨st1, h1, hok1⟩
  · simp [M.bind_def, h1]
  · obtain ⟨v0, hg0, hv0⟩ := bufGet_ok 0 st1 hok1 (by omega)
    by_cases hv5 : v0 = socksVer5
    case neg => simp [M.bind_def, h1, hg0, hv5, M.throw, M.pure_def]
    obtain ⟨m1, hg1, hm1⟩ := bufGet_ok 1 st1 hok1 (by omega)
    obtain ⟨at3, hg3, hat3⟩ := bufGet_ok 3 st1 hok1 (by omega)
    obtain ⟨l4, hg4, hl4⟩ := bufGet_ok 4 st1 hok1 (by omega)
    obtain ⟨st2, hs0, hok2⟩ := bufSet_ok 0 l4 st1 hok1 (by omega) hl4
    by_cases ha1 : at3 = AddrTypeIPv4
    · rcases readFull_cases 1 (4 + 2) st2 (by omega) (by rw [hok2.1]; omega) hok2 with
        h2 | ⟨st3, h2, hok3⟩
      · simp [AddrTypeIPv4, AddrTypeIPv6, AddrTypeDomain, M.bind_def, h1, hg0, hv5, hg1, hg3, hg4, hs0, ha1, h2, M.pure_def]
      · have htk := bufTake_ok 4 st3 hok3 (by omega)
        obtain ⟨p0, hp0, hb0⟩ := bufGet_ok 4 st3 hok3 (by omega)
        obtain ⟨p1, hp1, hb1⟩ := bufGet_ok (4 + 1) st3 hok3 (by omega)
        simp [AddrTypeIPv4, AddrTypeIPv6, AddrTypeDomain, M.bind_def, h1, hg0, hv5, hg1, hg3, hg4, hs0, ha1, h2, htk, hp0, hp1,
          M.pure_def]
    · by_cases ha6 : at3 = AddrTypeIPv6
      · rcases readFull_cases 1 (16 + 2) st2 (by omega) (by rw [hok2.1]; omega) hok2 with
          h2 | ⟨st3, h2, hok3⟩
        · simp [AddrTypeIPv4, AddrTypeIPv6, AddrTypeDomain, M.bind_def, h1, hg0, hv5, hg1, hg3, hg4, hs0, ha1, ha6, h2, M.pure_def]
        · have htk := bufTake_ok 16 st3 hok3 (by omega)
          obtain ⟨p0, hp0, hb0⟩ := bufGet_ok 16 st3 hok3 (by omega)
          obtain ⟨p1, hp1, hb1⟩ := bufGet_ok (16 + 1) st3 hok3 (by omega)
          simp [AddrTypeIPv4, AddrTypeIPv6, AddrTypeDomain, M.bind_def, h1, hg0, hv5, hg1, hg3, hg4, hs0, ha1, ha6, h2, htk, hp0, hp1,
            M.pure_def]
      · by_cases had : at3 = AddrTypeDomain
        · rcases readFull_cases 0 (l4 + 2) st2 (by omega) (by rw [hok2.1]; omega) hok2 with
            h2 | ⟨st3, h2, hok3⟩
          · simp [AddrTypeIPv4, AddrTypeIPv6, AddrTypeDomain, M.bind_def, h1, hg0, hv5, hg1, hg3, hg4, hs0, ha1, ha6, had, h2,
              M.pure_def]
          · have htk := bufTake_ok l4 st3 hok3 (by omega)
            obtain ⟨p0, hp0, hb0⟩ := bufGet_ok l4 st3 hok3 (by omega)
            obtain ⟨p1, hp1, hb1⟩ := bufGet_ok (l4 + 1) st3 hok3 (by omega)
            simp [AddrTypeIPv4, AddrTypeIPv6, AddrTypeDomain, M.bind_def, h1, hg0, hv5, hg1, hg3, hg4, hs0, ha1, ha6, had, h2, htk,
              hp0, hp1, M.pure_def]
        · have ha1' : ¬ at3 = 1 := by simpa [AddrTypeIPv4] using ha1
          have ha6' : ¬ at3 = 4 := by simpa [AddrTypeIPv6] using ha6
          have had' : ¬ at3 = 3 := by simpa [AddrTypeDomain] using had
          simp [AddrTypeIPv4, AddrTypeIPv6, AddrTypeDomain, M.bind_def, h1, hg0, hv5,
            hg1, hg3, hg4, hs0, ha1', ha6', had', M.throw, M.pure_def]

theorem userPassAuth_no_oob (u p : List Nat) (st : ConnSt) (hok : ConnOK st) :
    (userPassAuthenticate u p st).1 ≠ Except.error SErr.oobPanic := by
  unfold userPassAuthenticate
  rcases readFull_cases 0 2 st (by omega) (by rw [hok.1]; omega) hok with h1 | ⟨st1, h1, hok1⟩
  · simp [M.bind_def, h1]
  · obtain ⟨v0, hg0, hv0⟩ := bufGet_ok 0 st1 hok1 (by omega)
    by_cases hv1 : v0 = subNegotiationVer
    case neg => simp [M.bind_def, h1, hg0, hv1, M.throw, M.pure_def]
    obtain ⟨ul, hg1, hul⟩ := bufGet_ok 1 st1 hok1 (by omega)
    rcases readFull_cases 0 (ul + 1) st1 (by omega) (by rw [hok1.1]; omega) hok1 with
      h2 | ⟨st2, h2, hok2⟩
    · simp [M.bind_def, h1, hg0, hv1, hg1, h2, M.pure_def]
    · have htk := bufTake_ok ul st2 hok2 (by omega)
      obtain ⟨pl, hgpl, hpl⟩ := bufGet_ok ul st2 hok2 (by omega)
      rcases readFull_cases 0 pl st2 (by omega) (by rw [hok2.1]; omega) hok2 with
        h3 | ⟨st3, h3, hok3⟩
      · simp [M.bind_def, h1, hg0, hv1, hg1, h2, htk, hgpl, h3, M.pure_def]
      · have htk2 := bufTake_ok pl st3 hok3 (by omega)
        obtain ⟨st4, hs0, hok4⟩ := bufSet_ok 0 subNegotiationVer st3 hok3 (by omega)
          (by decide)
        obtain ⟨st5, hs1, hok5⟩ := bufSet_ok 1 0 st4 hok4 (by omega) (by decide)
        by_cases hfail : List.take ul st2.buf ≠ u ∨ List.take pl st3.buf ≠ p
        · obtain ⟨st6, hs2, hok6⟩ := bufSet_ok 1 0xED st5 hok5 (by omega) (by decide)
          obtain ⟨hw, hok7⟩ := writeBuf_ok 2 st6 hok6 (by omega)
          simp [M.bind_def, h1, hg0, hv1, hg1, h2, htk, hgpl, h3, htk2, hs0, hs1, hfail,
            hs2, hw, M.pure_def, M.throw]
        · obtain ⟨hw, hok7⟩ := writeBuf_ok 2 st5 hok5 (by omega)
          simp [M.bind_def, h1, hg0, hv1, hg1, h2, htk, hgpl, h3, htk2, hs0, hs1, hfail,
            hw, M.pure_def, M.throw]



set_option maxRecDepth 10000 in
theorem connOK_newConn (inp : List Nat) (h : ∀ b ∈ inp, b < 256) : ConnOK (newConn inp) := by
  refine ⟨by simp [newConn], ?_, h⟩
  intro b hb
  simp only [newConn] at hb
  have hb0 := List.eq_of_mem_replicate hb
  omega

/-! Claim theorems. -/

set_option maxRecDepth 100000 in
/-- C1: the claim says a command outside the configured allowed-command set (default
CONNECT-only) is answered `CommandNotSupported` with no handler invoked. The code
fails it: `handleConnection` dispatches on the raw command byte and never consults
`Server.Cmds`, so on a default server a BIND request runs the BIND handler to
completion (two responses and a relay) instead of being rejected. -/
theorem bind_dispatch_ignores_allowed_commands :
    CommandBind ∉ defaultServer.Cmds ∧
    (handleConnection defaultServer bindEnv0 (newConn bindReqInput)).2.relayed = true ∧
    (handleConnection defaultServer bindEnv0 (newConn bindReqInput)).2.out =
      [5, 0] ++ [5, 0, 0, 1, 9, 9, 9, 9, 0, 1] ++ [5, 0, 0, 1, 8, 8, 8, 8, 0, 2] := by
  refine ⟨by decide, by decide, by decide⟩

set_option maxRecDepth 100000 in
/-- C2: the claim says `WriteError` always writes the fixed 10-byte frame
`05 code 00 01 00×6`. The code fails it: `copy(errRes, c.buf)` has its arguments
reversed, so the constructed fixed frame is discarded and the wire carries the
first ten scratch-buffer bytes with only byte 1 set to the code — on a fresh
(zeroed) connection `00 07 00×8` instead of `05 07 00 01 00×6`. -/
theorem writeError_writes_scratch_echo_not_fixed_frame :
    (WriteError responseCommandNotSupported (newConn [])).2.out =
      [0, 7, 0, 0, 0, 0, 0, 0, 0, 0] ∧
    (WriteError responseCommandNotSupported (newConn [])).2.out ≠
      [socksVer5, responseCommandNotSupported, reserve, AddrTypeIPv4, 0, 0, 0, 0, 0, 0] := by
  refine ⟨by decide, by decide⟩

set_option maxRecDepth 100000 in
/-- C3 (counterexample): after a no-auth negotiation (echo `05 00`), a command
request with version byte 4 is answered with ten further bytes (a GeneralFailure
`WriteError` frame) — the output is not just the negotiation echo, refuting
"writes no further bytes to the client before tearing the connection down". -/
theorem invalid_version_request_answered_on_wire :
    (handleConnection defaultServer bindEnv0 (newConn c3Input)).2.out =
      [5, 0] ++ [4, 1, 0, 1, 1, 0, 0, 0, 0, 0] ∧
    (handleConnection defaultServer bindEnv0 (newConn c3Input)).2.out ≠ [5, 0] := by
  refine ⟨by decide, by decide⟩

set_option maxRecDepth 100000 in
/-- C4: the claim says a failed BIND accept ends the handler after its
`GeneralFailure` reply, with no second Success-shaped response and no relay. The
code fails it: the accept-failure branch lacks a `return`, so after the error
reply the handler dereferences the nil accepted connection (`nc.RemoteAddr()`),
a runtime panic; the successful path does emit exactly two Success responses and
then relays. -/
theorem bind_accept_failure_falls_through_to_panic :
    (handleBind bindFailEnv bindAddr0 (newConn [])).1 = Except.error SErr.nilPanic ∧
    (handleBind bindFailEnv bindAddr0 (newConn [])).2.out =
      [5, 0, 0, 1, 1, 2, 3, 4, 0, 5] ++ [5, 1, 0, 1, 1, 2, 3, 4, 0, 5] ∧
    (handleBind bindFailEnv bindAddr0 (newConn [])).2.relayed = false ∧
    (handleBind bindOkEnv bindAddr0 (newConn [])).1 = Except.ok () ∧
    (handleBind bindOkEnv bindAddr0 (newConn [])).2.out =
      [5, 0, 0, 1, 1, 2, 3, 4, 0, 5] ++ [5, 0, 0, 1, 5, 6, 7, 8, 0, 9] ∧
    (handleBind bindOkEnv bindAddr0 (newConn [])).2.relayed = true := by
  refine ⟨by decide, by decide, by decide, by decide, by decide, by decide⟩

set_option maxRecDepth 100000 in
/-- C5 (counterexample): a record declared IPv4 whose host is the IPv6 literal
`::1` is not rejected — `Marshal` succeeds (returns 7 bytes written) because the
family of the parsed IP is never checked, and since `To4` of an IPv6 address is
nil the four address bytes are silently left as the destination buffer had them. -/
theorem marshal_accepts_wrong_family_ip_host :
    (Marshal { Typ := AddrTypeIPv4, Addr := str "[::1]:80" } (List.replicate 256 0)).2 =
      Except.ok 7 ∧
    (Marshal { Typ := AddrTypeIPv4, Addr := str "[::1]:80" }
        (List.replicate 256 0)).1.take 7 = [AddrTypeIPv4, 0, 0, 0, 0, 0, 80] := by
  refine ⟨by decide, by decide⟩

set_option maxRecDepth 100000 in
/-- C6 (counterexample): the valid IPv6-family address string
`[0:0:0:0:0:0:0:0]:80` round-trips to `[::]:80` — type preserved but the
host:port text canonicalized — refuting the claim for every valid string. -/
theorem roundTrip_rewrites_noncanonical_ipv6_text :
    newAddr (str "[0:0:0:0:0:0:0:0]:80") =
      some { Typ := AddrTypeIPv6, Addr := str "[0:0:0:0:0:0:0:0]:80" } ∧
    roundTrip (str "[0:0:0:0:0:0:0:0]:80") =
      some { Typ := AddrTypeIPv6, Addr := str "[::]:80" } ∧
    str "[::]:80" ≠ str "[0:0:0:0:0:0:0:0]:80" := by
  refine ⟨by decide, by decide, by decide⟩

set_option maxRecDepth 100000 in
/-- C6 (amended): the `newAddr` → `Marshal` → `ReadCommandRequest` round trip
yields a record equal in type and host:port text to the original for each of the
five boundary-case strings of the spec (and of addr_test.go); in general IP hosts
come back in canonical text form, so only non-canonical IP literals change. -/
theorem roundTrip_preserves_boundary_cases :
    roundTrip (str "0.0.0.0:0") = some { Typ := AddrTypeIPv4, Addr := str "0.0.0.0:0" } ∧
    roundTrip (str "1.2.3.4:5") = some { Typ := AddrTypeIPv4, Addr := str "1.2.3.4:5" } ∧
    roundTrip (str "google.com:80") =
      some { Typ := AddrTypeDomain, Addr := str "google.com:80" } ∧
    roundTrip (str "[::]:80") = some { Typ := AddrTypeIPv6, Addr := str "[::]:80" } ∧
    roundTrip (str "[2001:db8::a:b:c:d]:80") =
      some { Typ := AddrTypeIPv6, Addr := str "[2001:db8::a:b:c:d]:80" } := by
  refine ⟨by decide, by decide, by decide, by decide, by decide⟩

/-- C7: on a 520-byte-buffer connection, a negotiation frame whose version byte is
not 5 makes `Negoatiate` fail with `InvalidSocksVersion` writing nothing, and a
version-5 frame whose offered method list does not contain the server's method
makes it write exactly `05 FF` and fail with `NoAcceptableMethod`. -/
theorem negotiate_no_method_and_bad_version_behaviour
    (auth v n : Nat) (methods rest restB : List Nat) (stA stB : ConnSt)
    (hbufA : stA.buf.length = 520) (hinpA : stA.inp = v :: n :: rest)
    (hv : v ≠ socksVer5)
    (hbufB : stB.buf.length = 520)
    (hinpB : stB.inp = socksVer5 :: methods.length :: (methods ++ restB))
    (hm : auth ∉ methods) (hlen : methods.length ≤ 255) :
    (Negoatiate auth stA).1 = Except.error SErr.invalidSocksVer ∧
    (Negoatiate auth stA).2.out = stA.out ∧
    (Negoatiate auth stB).1 = Except.error SErr.noAcceptableMethod ∧
    (Negoatiate auth stB).2.out = stB.out ++ [socksVer5, noAcceptable] := by
  obtain ⟨a1, a2⟩ := negotiate_scenario_a auth v n rest stA hbufA hinpA hv
  obtain ⟨b1, b2⟩ := negotiate_scenario_b auth methods restB stB hbufB hinpB hm hlen
  exact ⟨a1, a2, b1, b2⟩

set_option maxRecDepth 100000 in
theorem negotiate_no_method_and_bad_version_behaviour_witness :
    (Negoatiate 2 (newConn [4, 1])).1 = Except.error SErr.invalidSocksVer ∧
    (Negoatiate 2 (newConn [4, 1])).2.out = (newConn [4, 1]).out ∧
    (Negoatiate 2 (newConn [5, 1, 0])).1 = Except.error SErr.noAcceptableMethod ∧
    (Negoatiate 2 (newConn [5, 1, 0])).2.out =
      (newConn [5, 1, 0]).out ++ [socksVer5, noAcceptable] :=
  negotiate_no_method_and_bad_version_behaviour 2 4 1 [0] [] [] (newConn [4, 1])
    (newConn [5, 1, 0]) (by decide) rfl (by decide) (by decide) (by decide) (by decide)
    (by decide)

/-- C8: with a valid subnegotiation version byte and a well-formed RFC 1929 frame,
matching credentials make `Authenticate` write `01 00` and succeed, while
non-matching credentials make it write `01 ED` (a non-zero status) to the client
and only then report `AuthenticationFailed`. -/
theorem userpass_auth_wire_status_and_result
    (username password userB passB rest : List Nat) (st : ConnSt)
    (hbuf : st.buf.length = 520) (hinp : st.inp = authWire userB passB rest)
    (hu : userB.length ≤ 255) (hp : passB.length ≤ 255) :
    (userB = username → passB = password →
      (userPassAuthenticate username password st).1 = Except.ok () ∧
      (userPassAuthenticate username password st).2.out =
        st.out ++ [subNegotiationVer, 0x00]) ∧
    ((userB ≠ username ∨ passB ≠ password) →
      (userPassAuthenticate username password st).1 = Except.error SErr.authFailed ∧
      (userPassAuthenticate username password st).2.out =
        st.out ++ [subNegotiationVer, 0xED]) := by
  constructor
  · intro h1 h2
    exact auth_scenario_match username password userB passB rest st hbuf hinp hu hp h1 h2
  · intro hne
    exact auth_scenario_mismatch username password userB passB rest st hbuf hinp hu hp hne

set_option maxRecDepth 100000 in
theorem userpass_auth_wire_status_and_result_witness :
    ((userPassAuthenticate (str "u") (str "p")
        (newConn (authWire (str "u") (str "p") []))).1 = Except.ok () ∧
      (userPassAuthenticate (str "u") (str "p")
        (newConn (authWire (str "u") (str "p") []))).2.out =
        (newConn (authWire (str "u") (str "p") [])).out ++ [subNegotiationVer, 0x00]) ∧
    ((userPassAuthenticate (str "u") (str "p")
        (newConn (authWire (str "u") (str "x") []))).1 = Except.error SErr.authFailed ∧
      (userPassAuthenticate (str "u") (str "p")
        (newConn (authWire (str "u") (str "x") []))).2.out =
        (newConn (authWire (str "u") (str "x") [])).out ++ [subNegotiationVer, 0xED]) :=
  ⟨(userpass_auth_wire_status_and_result (str "u") (str "p") (str "u") (str "p") []
      (newConn (authWire (str "u") (str "p") [])) (by decide) rfl (by decide)
      (by decide)).1 rfl rfl,
   (userpass_auth_wire_status_and_result (str "u") (str "p") (str "u") (str "x") []
      (newConn (authWire (str "u") (str "x") [])) (by decide) rfl (by decide)
      (by decide)).2 (Or.inr (by decide))⟩

set_option maxRecDepth 100000 in
/-- C9 (counterexample): the record `{IPv4, "google.com:80"}` with a nil
destination buffer fails with `InvalidAddress`, not `ShortBuffer` — the address
checks run before the buffer-size check, refuting "for every address record". -/
theorem marshal_nil_buffer_invalid_record_not_short_buffer :
    Marshal { Typ := AddrTypeIPv4, Addr := str "google.com:80" } [] =
      ([], Except.error SErr.invalidAddr) ∧
    SErr.invalidAddr ≠ SErr.shortBuffer := by
  refine ⟨by decide, by decide⟩

/-- C10: for every connection state with the 520-byte scratch buffer and byte-valued
buffer and input (arbitrary client input), `Negoatiate`, `ReadCommandRequest` and
username/password `Authenticate` never perform an out-of-bounds buffer access:
every length field is a single byte, so the largest access stays within the
buffer. -/
theorem protocol_buffer_accesses_in_bounds (auth : Nat) (u p : List Nat) (st : ConnSt)
    (hok : ConnOK st) :
    (Negoatiate auth st).1 ≠ Except.error SErr.oobPanic ∧
    (ReadCommandRequest st).1 ≠ Except.error SErr.oobPanic ∧
    (userPassAuthenticate u p st).1 ≠ Except.error SErr.oobPanic :=
  ⟨negotiate_no_oob auth st hok, readCommandRequest_no_oob st hok,
   userPassAuth_no_oob u p st hok⟩

theorem protocol_buffer_accesses_in_bounds_witness :
    (Negoatiate 0 (newConn [])).1 ≠ Except.error SErr.oobPanic ∧
    (ReadCommandRequest (newConn [])).1 ≠ Except.error SErr.oobPanic ∧
    (userPassAuthenticate [] [] (newConn [])).1 ≠ Except.error SErr.oobPanic :=
  protocol_buffer_accesses_in_bounds 0 [] [] (newConn [])
    (connOK_newConn [] (by simp))

set_option maxRecDepth 100000 in
theorem invalid_version_request_reply_shape_witness :
    (handleConnection defaultServer bindEnv0
        (newConn (5 :: 1 :: 0 :: 4 :: 1 :: 0 :: 1 :: 1 :: [2, 3, 4, 0, 80]))).1 =
      Except.ok () ∧
    (handleConnection defaultServer bindEnv0
        (newConn (5 :: 1 :: 0 :: 4 :: 1 :: 0 :: 1 :: 1 :: [2, 3, 4, 0, 80]))).2.out =
      [socksVer5, noAuth, 4, responseGeneralFailure, 0, 1, 1, 0, 0, 0, 0, 0] ∧
    (handleConnection defaultServer bindEnv0
        (newConn (5 :: 1 :: 0 :: 4 :: 1 :: 0 :: 1 :: 1 :: [2, 3, 4, 0, 80]))).2.relayed =
      false :=
  invalid_version_request_reply_shape 4 1 0 1 1 [2, 3, 4, 0, 80] bindEnv0 (by decide)

set_option maxRecDepth 100000 in
theorem marshal_ip_type_fails_only_on_unparsable_host_witness :
    Marshal { Typ := AddrTypeIPv4, Addr := str "google.com:80" } (List.replicate 256 0) =
      (List.replicate 256 0, Except.error SErr.invalidAddr) :=
  marshal_ip_type_fails_only_on_unparsable_host
    { Typ := AddrTypeIPv4, Addr := str "google.com:80" } (List.replicate 256 0)
    (str "google.com") (str "80") (by decide) (by decide) (Or.inl rfl)

set_option maxRecDepth 100000 in
theorem marshal_short_buffer_leaves_buffer_unwritten_witness :
    Marshal { Typ := AddrTypeIPv4, Addr := str "0.0.0.0:0" } (List.replicate 5 0) =
      (List.replicate 5 0, Except.error SErr.shortBuffer) :=
  marshal_short_buffer_leaves_buffer_unwritten
    { Typ := AddrTypeIPv4, Addr := str "0.0.0.0:0" } (List.replicate 5 0)
    (str "0.0.0.0") (str "0") (by decide) (by decide) (by decide)

end Socks5
